import Mathlib

/-!
Shallow embedding of the co-production realtime collaboration server.

The repository contains near-duplicate revisions of one Node.js server.
Namespace `SJ` embeds `src/server.js`; namespace `P1` embeds
`src/unnamed/part_001`.  Both keep a fixed room registry with keys
"free" (drawing room), "novel" and "music" (text rooms), a per-connection
session record, and handle inbound WebSocket messages by mutating the
registry, persisting room content to disk, and broadcasting to members.

File-system writes are modelled as an ordered list of (room, content)
records; broadcasts as a list of (target room, recipient sessions,
message) records.  Sessions are identified by an opaque `Nat`; the
transport open/closed state (`readyState === OPEN`) is an external
predicate `openOf : Nat → Bool` passed to each handler.
-/

/-- Cursor position payload: either a text offset scalar or a canvas
coordinate pair, mirroring the two JSON shapes the clients send. -/
inductive Pos where
  | scalar (n : Int) : Pos
  | point (x y : Int) : Pos
deriving DecidableEq

/-- Generic association-table lookup (JS object property / Map.get):
first entry with the given key. -/
def tblFind {κ α : Type} [DecidableEq κ] (l : List (κ × α)) (k : κ) : Option α :=
  (l.find? (fun p => decide (p.1 = k))).map Prod.snd

/-- Generic association-table upsert (JS Map.set semantics: replace in
place when the key exists, else append, preserving insertion order). -/
def tblSet {κ α : Type} [DecidableEq κ] (l : List (κ × α)) (k : κ) (v : α) : List (κ × α) :=
  if l.any (fun p => decide (p.1 = k)) then
    l.map (fun p => if p.1 = k then (k, v) else p)
  else l ++ [(k, v)]

/-- Generic association-table delete (JS Map.delete). -/
def tblDel {κ α : Type} [DecidableEq κ] (l : List (κ × α)) (k : κ) : List (κ × α) :=
  l.filter (fun p => decide (¬ p.1 = k))

/-- JS `Set.add`: no-op when the element is present, else append
(insertion order preserved). -/
def setAdd (l : List Nat) (x : Nat) : List Nat :=
  if x ∈ l then l else l ++ [x]

/-- JS `Set.delete` on a duplicate-free list. -/
def setDel (l : List Nat) (x : Nat) : List Nat := l.erase x

/-- The fixed room registry keys shared by every revision:
`rooms = { free, novel, music }`. -/
def knownRoom (r : String) : Bool :=
  r == "free" || r == "novel" || r == "music"

/-- Initial novel text from `INITIAL_CONTENT.novel`. -/
def initialNovelText : String :=
  "ここに小説を共同で入力してください。\n\n他の参加者が入力するとリアルタイムで反映されます。"

/-- Initial music text from `INITIAL_CONTENT.music`. -/
def initialMusicText : String :=
  "[歌詞/アイデア]:\nここに音楽の歌詞やアイデアを共同で入力してください。"

namespace SJ

/-- One stroke record of `src/server.js`: the fields destructured from a
`draw` message and pushed onto `rooms.free.content.history`. -/
structure Stroke where
  x0 : Int
  y0 : Int
  x1 : Int
  y1 : Int
  color : String
  lineWidth : Int
  isErase : Bool
deriving DecidableEq

/-- Room content: the drawing room holds `{ history: [...] }`, the text
rooms hold a string blob. -/
inductive Content where
  | drawing (history : List Stroke) : Content
  | text (s : String) : Content
deriving DecidableEq

/-- Per-connection `ws.clientInfo`: room and nickname, both unset until
the first accepted join. -/
structure ClientInfo where
  room : Option String
  nickname : Option String
deriving DecidableEq

/-- The whole mutable server state of `src/server.js`: the three fixed
rooms of the `rooms` object plus the per-connection `clientInfo`
records. -/
structure ServerState where
  freeHistory : List Stroke
  freeClients : List Nat
  novelContent : String
  novelClients : List Nat
  musicContent : String
  musicClients : List Nat
  sessions : List (Nat × ClientInfo)
deriving DecidableEq

/-- Reads `ws.clientInfo` (fresh connections start with `{}`). -/
def getInfo (st : ServerState) (sid : Nat) : ClientInfo :=
  (tblFind st.sessions sid).getD ⟨none, none⟩

/-- Writes `ws.clientInfo` for one connection. -/
def setInfo (st : ServerState) (sid : Nat) (ci : ClientInfo) : ServerState :=
  { st with sessions := tblSet st.sessions sid ci }

/-- Accessor for `rooms[r].clients`; `none` for an unknown room id. -/
def clientsOf (st : ServerState) (r : String) : Option (List Nat) :=
  if r = "free" then some st.freeClients
  else if r = "novel" then some st.novelClients
  else if r = "music" then some st.musicClients
  else none

/-- Accessor for `rooms[r].content`; `none` for an unknown room id. -/
def contentOf (st : ServerState) (r : String) : Option Content :=
  if r = "free" then some (.drawing st.freeHistory)
  else if r = "novel" then some (.text st.novelContent)
  else if r = "music" then some (.text st.musicContent)
  else none

/-- Replaces `rooms[r].clients` (no-op on an unknown room). -/
def setClients (st : ServerState) (r : String) (cs : List Nat) : ServerState :=
  if r = "free" then { st with freeClients := cs }
  else if r = "novel" then { st with novelClients := cs }
  else if r = "music" then { st with musicClients := cs }
  else st

/-- Replaces a text room's content string (`rooms[r].content = c`). -/
def setText (st : ServerState) (r : String) (c : String) : ServerState :=
  if r = "novel" then { st with novelContent := c }
  else if r = "music" then { st with musicContent := c }
  else st

/-- The guarded `rooms[old].clients.delete(ws)` of the join handler. -/
def removeClient (st : ServerState) (r : String) (sid : Nat) : ServerState :=
  match clientsOf st r with
  | some cs => setClients st r (setDel cs sid)
  | none => st

/-- `rooms[r].clients.add(ws)` (the caller has checked the room). -/
def addClient (st : ServerState) (r : String) (sid : Nat) : ServerState :=
  match clientsOf st r with
  | some cs => setClients st r (setAdd cs sid)
  | none => st

/-- Outbound messages of `src/server.js` (shape of the JSON object given
to `broadcast`). -/
inductive OutMsg where
  | user_list_update (users : List (Option String)) : OutMsg
  | draw (room : String) (line : Stroke) : OutMsg
  | text_update (room : String) (content : String) : OutMsg
  | clear (room : String) : OutMsg
  | undo_redo (room : String) (history : List Stroke) (historyIndex : Int) : OutMsg
  | cursor_update (room : String) (nickname : Option String) (isText : Bool)
      (position : Pos) : OutMsg
deriving DecidableEq

/-- One performed fan-out: target room, sessions the message was sent
to, and the message. -/
structure Bcast where
  room : String
  recipients : List Nat
  msg : OutMsg
deriving DecidableEq

/-- The `broadcast` function of `src/server.js`: iterate
`rooms[r].clients`, send to every member whose transport is OPEN;
silently do nothing for an unknown room. -/
def broadcast (openOf : Nat → Bool) (st : ServerState) (r : String) (m : OutMsg) :
    List Bcast :=
  match clientsOf st r with
  | some cs => [⟨r, cs.filter openOf, m⟩]
  | none => []

/-- `saveRoomContent`: one synchronous full-content write of
`rooms[r].content` to `DATA_DIR/r.json`. -/
def saveRoomContent (st : ServerState) (r : String) : List (String × Content) :=
  match contentOf st r with
  | some c => [(r, c)]
  | none => []

/-- Result of processing one event: new state, fan-outs performed, and
file writes performed (in order). -/
structure HRes where
  state : ServerState
  sends : List Bcast
  saves : List (String × Content)
deriving DecidableEq

/-- Inbound messages of `src/server.js` (fields read from the parsed
JSON). -/
inductive InMsg where
  | join (room nickname : String) : InMsg
  | draw (room : String) (line : Stroke) : InMsg
  | text_update (room : String) (content : String) : InMsg
  | clear (room : String) : InMsg
  | undo (room : String) (historyIndex : Int) : InMsg
  | redo (room : String) (historyIndex : Int) : InMsg
  | cursor_update (room : String) (isText : Bool) (position : Pos) : InMsg
deriving DecidableEq

/-- Discriminates the join message (the only one accepted before a
session has a room). -/
def InMsg.isJoin : InMsg → Bool
  | .join _ _ => true
  | _ => false

/-- The `type === 'join'` block of `src/server.js`.  Mutation order
follows the source: leave the old room, set `clientInfo`, then
`rooms[room].clients.add(ws)` — which throws for an unknown room id; the
surrounding try/catch swallows the exception, so the partial state
(clientInfo already set) survives and nothing is broadcast. -/
def handleJoin (openOf : Nat → Bool) (st : ServerState) (sid : Nat)
    (r nick : String) : HRes :=
  let st1 :=
    match (getInfo st sid).room with
    | some old => removeClient st old sid
    | none => st
  let st2 := setInfo st1 sid ⟨some r, some nick⟩
  if knownRoom r then
    let st3 := addClient st2 r sid
    let users := ((clientsOf st3 r).getD []).map (fun c => (getInfo st3 c).nickname)
    ⟨st3, broadcast openOf st3 r (.user_list_update users), []⟩
  else
    ⟨st2, [], []⟩

/-- The `ws.on('message')` handler of `src/server.js`: the join block
(guarded by truthy room and nickname), then the
`if (!ws.clientInfo.room) return;` guard, then the switch. -/
def handleMessage (openOf : Nat → Bool) (st : ServerState) (sid : Nat)
    (m : InMsg) : HRes :=
  let afterJoin : HRes :=
    match m with
    | .join r nick =>
        if r ≠ "" ∧ nick ≠ "" then handleJoin openOf st sid r nick else ⟨st, [], []⟩
    | _ => ⟨st, [], []⟩
  let st := afterJoin.state
  if (getInfo st sid).room = none then afterJoin
  else
    match m with
    | .join _ _ => afterJoin
    | .draw r line =>
        if r = "free" then
          let st1 := { st with freeHistory := st.freeHistory ++ [line] }
          ⟨st1, broadcast openOf st1 r (.draw r line), saveRoomContent st1 "free"⟩
        else ⟨st, [], []⟩
    | .text_update r c =>
        if r = "novel" ∨ r = "music" then
          let st1 := setText st r c
          ⟨st1, broadcast openOf st1 r (.text_update r c), saveRoomContent st1 r⟩
        else ⟨st, [], []⟩
    | .clear r =>
        if r = "free" then
          let st1 := { st with freeHistory := [] }
          ⟨st1, broadcast openOf st1 r (.clear r), saveRoomContent st1 "free"⟩
        else ⟨st, [], []⟩
    | .undo r k =>
        if r = "free" then
          ⟨st, broadcast openOf st "free" (.undo_redo "free" st.freeHistory k), []⟩
        else ⟨st, [], []⟩
    | .redo r k =>
        if r = "free" then
          ⟨st, broadcast openOf st "free" (.undo_redo "free" st.freeHistory k), []⟩
        else ⟨st, [], []⟩
    | .cursor_update r isText p =>
        ⟨st, broadcast openOf st r (.cursor_update r (getInfo st sid).nickname isText p), []⟩

/-- Processes a sequence of (session, message) events in arrival order,
accumulating fan-outs and file writes. -/
def run (openOf : Nat → Bool) (st : ServerState) : List (Nat × InMsg) → HRes
  | [] => ⟨st, [], []⟩
  | (sid, m) :: rest =>
      let r1 := handleMessage openOf st sid m
      let r2 := run openOf r1.state rest
      ⟨r2.state, r1.sends ++ r2.sends, r1.saves ++ r2.saves⟩

/-- Fresh-start state of `src/server.js` (no data files on disk: the
defaults of the `rooms` object literal, no connections). -/
def initialState : ServerState :=
  ⟨[], [], initialNovelText, [], initialMusicText, [], []⟩

end SJ

namespace P1

/-- One stroke record of `src/unnamed/part_001`: the fields copied from
`data.line` into `rooms.free.content.history`. -/
structure Stroke where
  x0 : Int
  y0 : Int
  x1 : Int
  y1 : Int
  color : String
  width : Int
  tool : String
deriving DecidableEq

/-- One presence entry of part_001's `cursors` map: the object stored by
the `cursor_update` case. -/
structure CursorState where
  isText : Bool
  position : Pos
  tool : Option String
  penColor : Option String
  penWidth : Option Int
deriving DecidableEq

/-- Per-connection fields part_001 stores on the socket itself:
`ws.room` and `ws.nickname`. -/
structure Sess where
  room : Option String
  nickname : Option String
deriving DecidableEq

/-- Room content for part_001's saves (free room: the `{ history }`
object; text rooms: the raw string). -/
inductive Content where
  | drawing (history : List Stroke) : Content
  | text (s : String) : Content
deriving DecidableEq

/-- The whole mutable server state of part_001: the three fixed rooms
(content, clients, cursors) and the connected-socket set `wss.clients`
with each socket's fields.  The `cursors` key is `ws.nickname`, which is
`none` for a socket that never joined. -/
structure State where
  freeHistory : List Stroke
  novelContent : String
  musicContent : String
  freeClients : List Nat
  novelClients : List Nat
  musicClients : List Nat
  freeCursors : List (Option String × CursorState)
  novelCursors : List (Option String × CursorState)
  musicCursors : List (Option String × CursorState)
  sessions : List (Nat × Sess)
deriving DecidableEq

/-- Reads a socket's `ws.room` / `ws.nickname` fields (both undefined on
a fresh connection). -/
def getSess (st : State) (sid : Nat) : Sess :=
  (tblFind st.sessions sid).getD ⟨none, none⟩

/-- Writes a socket's fields. -/
def setSess (st : State) (sid : Nat) (s : Sess) : State :=
  { st with sessions := tblSet st.sessions sid s }

/-- Accessor for `rooms[r].clients`; `none` for an unknown room id. -/
def clientsOf (st : State) (r : String) : Option (List Nat) :=
  if r = "free" then some st.freeClients
  else if r = "novel" then some st.novelClients
  else if r = "music" then some st.musicClients
  else none

/-- Accessor for `rooms[r].cursors`; `none` for an unknown room id. -/
def cursorsOf (st : State) (r : String) : Option (List (Option String × CursorState)) :=
  if r = "free" then some st.freeCursors
  else if r = "novel" then some st.novelCursors
  else if r = "music" then some st.musicCursors
  else none

/-- Replaces `rooms[r].clients` (no-op on an unknown room). -/
def setClients (st : State) (r : String) (cs : List Nat) : State :=
  if r = "free" then { st with freeClients := cs }
  else if r = "novel" then { st with novelClients := cs }
  else if r = "music" then { st with musicClients := cs }
  else st

/-- Replaces `rooms[r].cursors` (no-op on an unknown room). -/
def setCursors (st : State) (r : String) (m : List (Option String × CursorState)) : State :=
  if r = "free" then { st with freeCursors := m }
  else if r = "novel" then { st with novelCursors := m }
  else if r = "music" then { st with musicCursors := m }
  else st

/-- Replaces a text room's content string. -/
def setText (st : State) (r : String) (c : String) : State :=
  if r = "novel" then { st with novelContent := c }
  else if r = "music" then { st with musicContent := c }
  else st

/-- `rooms[r].clients.delete(ws)`. -/
def removeClient (st : State) (r : String) (sid : Nat) : State :=
  match clientsOf st r with
  | some cs => setClients st r (setDel cs sid)
  | none => st

/-- `rooms[r].clients.add(ws)`. -/
def addClient (st : State) (r : String) (sid : Nat) : State :=
  match clientsOf st r with
  | some cs => setClients st r (setAdd cs sid)
  | none => st

/-- `rooms[r].cursors.delete(k)`. -/
def removeCursor (st : State) (r : String) (k : Option String) : State :=
  match cursorsOf st r with
  | some m => setCursors st r (tblDel m k)
  | none => st

/-- `rooms[r].cursors.set(k, v)`. -/
def setCursor (st : State) (r : String) (k : Option String) (v : CursorState) : State :=
  match cursorsOf st r with
  | some m => setCursors st r (tblSet m k v)
  | none => st

/-- Outbound messages of part_001. -/
inductive OutMsg where
  | joined (users : List (Option String)) : OutMsg
  | user_list_update (users : List (Option String)) : OutMsg
  | draw (room : String) (line : Stroke) : OutMsg
  | content_update (room : String) (content : String) : OutMsg
  | clear (room : String) : OutMsg
  | undo_redo (room : String) (history : List Stroke) (historyIndex : Int) : OutMsg
  | cursor_update (room : String) (nickname : Option String) (isText : Bool)
      (position : Pos) (tool penColor : Option String) (penWidth : Option Int) : OutMsg
deriving DecidableEq

/-- One performed fan-out (target room, recipients, message). -/
structure Bcast where
  room : String
  recipients : List Nat
  msg : OutMsg
deriving DecidableEq

/-- part_001's `broadcast`: iterate ALL connected sockets
(`wss.clients`) and send to every one that is OPEN and whose `ws.room`
equals the target room. -/
def broadcast (openOf : Nat → Bool) (st : State) (r : String) (m : OutMsg) :
    List Bcast :=
  [⟨r, (st.sessions.filter (fun p => openOf p.1 && decide (p.2.room = some r))).map
       Prod.fst, m⟩]

/-- Result of one part_001 event: new state, broadcasts, direct
`ws.send` messages (socket, message), ordered file writes, and whether
the handler ran to completion (`ok = false` marks a thrown exception
that escapes the handler; mutations made before the throw are kept). -/
structure HRes where
  state : State
  sends : List Bcast
  directs : List (Nat × OutMsg)
  saves : List (String × Content)
  ok : Bool
deriving DecidableEq

/-- Inbound messages of part_001.  A `content_update` carries either a
`line` object (drawing) or a `content` string (text rooms). -/
inductive InMsg where
  | join (room nickname : String) : InMsg
  | content_update (room : String) (line : Option Stroke) (content : String) : InMsg
  | clear : InMsg
  | undo (room : String) (historyIndex : Int) : InMsg
  | redo (room : String) (historyIndex : Int) : InMsg
  | cursor_update (room : String) (isText : Bool) (position : Pos)
      (tool penColor : Option String) (penWidth : Option Int) : InMsg
deriving DecidableEq

/-- Tail of part_001's join case after the old-room cleanup: set
`ws.room` / `ws.nickname`, add to the new room when it exists, then
`Array.from(rooms[data.room].clients)` — which throws for an unknown
room (part_001 has no try/catch, so the exception escapes). -/
def joinCore (openOf : Nat → Bool) (st : State) (sid : Nat) (r nick : String) : HRes :=
  let st2 := setSess st sid ⟨some r, some nick⟩
  if knownRoom r then
    let st3 := addClient st2 r sid
    let users := ((clientsOf st3 r).getD []).map (fun c => (getSess st3 c).nickname)
    let snaps := ((cursorsOf st3 r).getD []).map (fun p =>
      (sid, OutMsg.cursor_update r p.1 p.2.isText p.2.position p.2.tool p.2.penColor
        p.2.penWidth))
    ⟨st3, broadcast openOf st3 r (.joined users), snaps, [], true⟩
  else ⟨st2, [], [], [], false⟩

/-- part_001's join case: when `ws.room` is already set, delete the
socket from the old room's clients and cursors first —
`rooms[ws.room].clients` throws when the old room id is unknown. -/
def handleJoin (openOf : Nat → Bool) (st : State) (sid : Nat) (r nick : String) : HRes :=
  let s := getSess st sid
  match s.room with
  | some old =>
      if knownRoom old then
        joinCore openOf (removeCursor (removeClient st old sid) old s.nickname) sid r nick
      else ⟨st, [], [], [], false⟩
  | none => joinCore openOf st sid r nick

/-- part_001's append-with-bound on the drawing history: push, then a
single `shift()` when the length exceeds 2000. -/
def evictPush (h : List Stroke) (l : Stroke) : List Stroke :=
  let h1 := h ++ [l]
  if 2000 < h1.length then h1.drop 1 else h1

/-- The `ws.on('message')` switch of part_001.  There is no
"has this session joined?" guard: every case runs for any connection. -/
def handleMessage (openOf : Nat → Bool) (st : State) (sid : Nat) (m : InMsg) : HRes :=
  match m with
  | .join r nick => handleJoin openOf st sid r nick
  | .content_update r line c =>
      if r = "free" then
        match line with
        | some l =>
            let h2 := evictPush st.freeHistory l
            let st1 := { st with freeHistory := h2 }
            ⟨st1, broadcast openOf st1 r (.draw r l), [], [("free", .drawing h2)], true⟩
        | none => ⟨st, [], [], [], true⟩
      else if r = "novel" ∨ r = "music" then
        let st1 := setText st r c
        ⟨st1, broadcast openOf st1 r (.content_update r c), [], [(r, .text c)], true⟩
      else ⟨st, [], [], [], true⟩
  | .clear =>
      let st1 := { st with freeHistory := [] }
      ⟨st1, broadcast openOf st1 "free" (.clear "free"), [], [("free", .drawing [])], true⟩
  | .undo r k =>
      if r = "free" then
        ⟨st, broadcast openOf st "free" (.undo_redo "free" st.freeHistory k), [], [], true⟩
      else ⟨st, [], [], [], true⟩
  | .redo r k =>
      if r = "free" then
        ⟨st, broadcast openOf st "free" (.undo_redo "free" st.freeHistory k), [], [], true⟩
      else ⟨st, [], [], [], true⟩
  | .cursor_update r isText p tool penColor penWidth =>
      if knownRoom r then
        let st1 := setCursor st r (getSess st sid).nickname
          ⟨isText, p, tool, penColor, penWidth⟩
        ⟨st1, broadcast openOf st1 r (.cursor_update r none isText p tool penColor penWidth),
          [], [], true⟩
      else ⟨st, [], [], [], true⟩

/-- Body of part_001's close handler once the `if (room && nickname)`
guard has passed: delete the socket from the room's clients and its
nickname from the cursors map, then rebroadcast the roster and the two
cursor-hiding sentinels.  `rooms[r].clients.delete` throws when the
recorded room id is unknown (no try/catch in part_001). -/
def closeCore (openOf : Nat → Bool) (st0 : State) (sid : Nat) (r nick : String) : HRes :=
  if knownRoom r then
    let st1 := removeCursor (removeClient st0 r sid) r (some nick)
    let users := ((clientsOf st1 r).getD []).map (fun c => (getSess st1 c).nickname)
    ⟨st1,
      broadcast openOf st1 r (.user_list_update users)
        ++ broadcast openOf st1 r
            (.cursor_update r (some nick) true (.scalar (-1)) none none none)
        ++ broadcast openOf st1 r
            (.cursor_update r (some nick) false (.point (-1) (-1)) none none none),
      [], [], true⟩
  else ⟨st0, [], [], [], false⟩

/-- part_001's `ws.on('close')` handler.  The closed socket has already
left `wss.clients` when the event fires, so it is removed from the
session table first; the cleanup runs only when both `ws.room` and
`ws.nickname` are truthy. -/
def handleClose (openOf : Nat → Bool) (st : State) (sid : Nat) : HRes :=
  let s := getSess st sid
  let st0 : State := { st with sessions := st.sessions.filter (fun p => decide (¬ p.1 = sid)) }
  match s.room, s.nickname with
  | some r, some nick =>
      if r ≠ "" ∧ nick ≠ "" then closeCore openOf st0 sid r nick
      else ⟨st0, [], [], [], true⟩
  | _, _ => ⟨st0, [], [], [], true⟩

/-- Processes a sequence of (session, message) events in arrival order. -/
def run (openOf : Nat → Bool) (st : State) : List (Nat × InMsg) → HRes
  | [] => ⟨st, [], [], [], true⟩
  | (sid, m) :: rest =>
      let r1 := handleMessage openOf st sid m
      let r2 := run openOf r1.state rest
      ⟨r2.state, r1.sends ++ r2.sends, r1.directs ++ r2.directs, r1.saves ++ r2.saves,
        r1.ok && r2.ok⟩

/-- Fresh-start state of part_001 (defaults of the `rooms` literal, no
connections). -/
def initialState : State :=
  ⟨[], initialNovelText, initialMusicText, [], [], [], [], [], [], []⟩

end P1

/-- A concrete stroke family for scenarios: segment number `i` of a
drawing session (distinct segments for distinct `i`). -/
def SJ.mkSeg (i : Nat) : SJ.Stroke := ⟨i, i, i, i, "black", 2, false⟩

/-- A concrete stroke family for part_001 scenarios. -/
def P1.mkSeg (i : Nat) : P1.Stroke := ⟨i, i, i, i, "black", 2, "pen"⟩

/-- A concrete reachable `src/server.js` state: session 0 joined "free",
sessions 1 and 2 joined "novel". -/
def SJ.demoState : SJ.ServerState :=
  ⟨[], [0], "Hello", [1, 2], initialMusicText, [],
    [(0, ⟨some "free", some "carol"⟩), (1, ⟨some "novel", some "alice"⟩),
      (2, ⟨some "novel", some "bob"⟩)]⟩

/-- A concrete cursor entry for part_001 scenarios. -/
def P1.demoCursor : P1.CursorState := ⟨false, .point 3 4, some "pen", some "red", some 2⟩

/-- A concrete reachable part_001 state: sessions 0 ("alice") and 1
("bob") joined "free" (alice has a live canvas cursor), session 5
("carol") joined "novel". -/
def P1.demoState : P1.State :=
  ⟨[], initialNovelText, initialMusicText, [0, 1], [5], [],
    [(some "alice", P1.demoCursor)], [], [],
    [(0, ⟨some "free", some "alice"⟩), (1, ⟨some "free", some "bob"⟩),
      (5, ⟨some "novel", some "carol"⟩)]⟩

/-- The event list of the 2001-stroke scenario against `src/server.js`:
session 0 sends `draw` messages with segments 0..2000. -/
def SJ.c1History : List SJ.Stroke := (List.range 2001).map SJ.mkSeg

/-- The 2001 `draw` events for the `src/server.js` scenario. -/
def SJ.c1Events : List (Nat × SJ.InMsg) :=
  SJ.c1History.map (fun l => (0, SJ.InMsg.draw "free" l))

/-! Helper lemmas about the table and set primitives, and about single
handler steps, shared by the claim theorems below. -/

theorem tblFind_tblSet_self {κ α : Type} [DecidableEq κ] (l : List (κ × α)) (k : κ) (v : α) :
    tblFind (tblSet l k v) k = some v := by
  induction l with
  | nil => simp [tblFind, tblSet]
  | cons hd tl ih =>
      by_cases hhd : hd.1 = k
      · simp [tblFind, tblSet, hhd]
      · by_cases hany : tl.any (fun p => decide (p.1 = k)) = true
        · simp only [tblFind, tblSet, List.any_cons, hhd, decide_eq_true_eq, hany,
            Bool.or_true, if_true, List.map_cons, if_neg hhd] at ih ⊢
          rw [List.find?_cons_of_neg _ (by simp [hhd])]
          simpa [hany] using ih
        · simp only [tblFind, tblSet, List.any_cons, hhd, decide_eq_true_eq, hany,
            Bool.or_false] at ih ⊢
          simp only [Bool.false_or, if_false, List.cons_append]
          rw [List.find?_cons_of_neg _ (by simp [hhd])]
          simpa [hany] using ih

theorem tblFind_tblDel_self {κ α : Type} [DecidableEq κ] (l : List (κ × α)) (k : κ) :
    tblFind (tblDel l k) k = none := by
  have h : (tblDel l k).find? (fun p => decide (p.1 = k)) = none := by
    rw [List.find?_eq_none]
    intro p hp
    have h2 := (List.mem_filter.mp hp).2
    simp only [decide_eq_true_eq] at h2 ⊢
    exact h2
  simp [tblFind, h]

theorem mem_tblDel_ne {κ α : Type} [DecidableEq κ] (l : List (κ × α)) (k : κ)
    (p : κ × α) (hp : p ∈ tblDel l k) : ¬ p.1 = k := by
  have h2 := (List.mem_filter.mp hp).2
  simpa using h2

theorem mem_setAdd_self (l : List Nat) (x : Nat) : x ∈ setAdd l x := by
  unfold setAdd
  split
  · assumption
  · simp

theorem not_mem_setDel_self (l : List Nat) (x : Nat) (h : l.count x ≤ 1) :
    x ∉ setDel l x := by
  unfold setDel
  intro hmem
  have hpos := List.count_pos_iff.mpr hmem
  rw [List.count_erase_self] at hpos
  omega

theorem listDropCongr {α : Type} (a b : Nat) (x y : List α) (ha : a = b) (hxy : x = y) :
    x.drop a = y.drop b := by
  rw [ha, hxy]

theorem knownRoom_cases {r : String} (h : knownRoom r = true) :
    r = "free" ∨ r = "novel" ∨ r = "music" := by
  simp only [knownRoom, Bool.or_eq_true, beq_iff_eq] at h
  tauto

/-- One accepted `draw` step of `src/server.js`: unconditional append to
the history, one full-content save, one broadcast of the raw message. -/
theorem SJ.draw_step (openOf : Nat → Bool) (st : SJ.ServerState) (sid : Nat)
    (line : SJ.Stroke) (h : ¬ (SJ.getInfo st sid).room = none) :
    SJ.handleMessage openOf st sid (.draw "free" line) =
      ⟨{ st with freeHistory := st.freeHistory ++ [line] },
       [⟨"free", st.freeClients.filter openOf, .draw "free" line⟩],
       [("free", .drawing (st.freeHistory ++ [line]))]⟩ := by
  simp [SJ.handleMessage, SJ.broadcast, SJ.clientsOf, SJ.saveRoomContent, SJ.contentOf, h]

/-- Folding accepted `draw` messages in `src/server.js` appends every
segment to the history, with no bound. -/
theorem SJ.run_draws (openOf : Nat → Bool) (sid : Nat) (segs : List SJ.Stroke)
    (st : SJ.ServerState) (h : ¬ (SJ.getInfo st sid).room = none) :
    (SJ.run openOf st (segs.map (fun l => (sid, SJ.InMsg.draw "free" l)))).state =
      { st with freeHistory := st.freeHistory ++ segs } := by
  induction segs generalizing st with
  | nil => simp [SJ.run]
  | cons l rest ih =>
      simp only [List.map_cons, SJ.run]
      rw [SJ.draw_step openOf st sid l h]
      rw [ih { st with freeHistory := st.freeHistory ++ [l] } h]
      simp

/-- One drawing step of part_001's `content_update`: bounded append,
save, broadcast of a `draw` message. -/
theorem P1.content_draw_step (openOf : Nat → Bool) (st : P1.State) (sid : Nat)
    (l : P1.Stroke) (c : String) :
    P1.handleMessage openOf st sid (.content_update "free" (some l) c) =
      ⟨{ st with freeHistory := P1.evictPush st.freeHistory l },
       [⟨"free",
         (st.sessions.filter (fun p => openOf p.1 && decide (p.2.room = some "free"))).map
           Prod.fst, .draw "free" l⟩],
       [], [("free", .drawing (P1.evictPush st.freeHistory l))], true⟩ := by
  simp [P1.handleMessage, P1.broadcast]

/-- Folding drawing `content_update` messages in part_001 folds the
bounded push over the history. -/
theorem P1.run_content_draws (openOf : Nat → Bool) (sid : Nat) (segs : List P1.Stroke)
    (st : P1.State) :
    (P1.run openOf st
      (segs.map (fun l => (sid, P1.InMsg.content_update "free" (some l) "")))).state =
      { st with freeHistory := segs.foldl P1.evictPush st.freeHistory } := by
  induction segs generalizing st with
  | nil => simp [P1.run]
  | cons l rest ih =>
      simp only [List.map_cons, P1.run, List.foldl_cons]
      rw [P1.content_draw_step openOf st sid l ""]
      rw [ih { st with freeHistory := P1.evictPush st.freeHistory l }]

/-- The bounded push keeps the most recent 2000 entries: folding it from
a within-bound start yields the suffix of the full segment sequence. -/
theorem P1.evictPush_fold (segs : List P1.Stroke) (h : List P1.Stroke)
    (hb : h.length ≤ 2000) :
    segs.foldl P1.evictPush h = (h ++ segs).drop (h.length + segs.length - 2000) := by
  induction segs generalizing h with
  | nil => simp [Nat.sub_eq_zero_of_le hb]
  | cons s rest ih =>
      simp only [List.foldl_cons]
      by_cases hlen : h.length + 1 ≤ 2000
      · have hstep : P1.evictPush h s = h ++ [s] := by
          unfold P1.evictPush
          rw [if_neg (by simp; omega)]
        rw [hstep, ih (h ++ [s]) (by simp; omega)]
        refine listDropCongr _ _ _ _ ?_ ?_
        · simp only [List.length_append, List.length_singleton, List.length_cons, List.length_nil]
          omega
        · simp
      · have h2000 : h.length = 2000 := by omega
        have hstep : P1.evictPush h s = (h ++ [s]).drop 1 := by
          unfold P1.evictPush
          rw [if_pos (by simp; omega)]
        rw [hstep, ih _ (by simp [h2000])]
        rw [← List.drop_append_of_le_length (by simp)]
        rw [List.drop_drop]
        refine listDropCongr _ _ _ _ ?_ ?_
        · simp only [List.length_drop, List.length_append, List.length_singleton,
            List.length_cons, List.length_nil, h2000]
          omega
        · simp

/-- A successful `tblFind` returns an actual entry of the table. -/
theorem tblFind_mem {κ α : Type} [DecidableEq κ] (l : List (κ × α)) (k : κ) (v : α)
    (h : tblFind l k = some v) : (k, v) ∈ l := by
  induction l with
  | nil => simp [tblFind] at h
  | cons hd tl ih =>
      by_cases hhd : hd.1 = k
      · have h2 : hd.2 = v := by
          rw [tblFind, List.find?_cons_of_pos _ (by simp [hhd])] at h
          simpa using h
        have h3 : hd = (k, v) := by
          cases hd
          simp_all
        rw [← h3]
        exact List.mem_cons_self _ _
      · rw [tblFind, List.find?_cons_of_neg _ (by simp [hhd])] at h
        exact List.mem_cons_of_mem _ (ih h)

/-- Folding a function that ignores its accumulator returns the image of
the last element, or the start value on the empty list. -/
theorem foldlReplace {α β : Type} (f : α → β) (l : List α) (init : β) :
    l.foldl (fun _ a => f a) init = l.getLast?.elim init f := by
  induction l generalizing init with
  | nil => rfl
  | cons a t ih =>
      simp only [List.foldl_cons]
      rw [ih (f a)]
      cases t with
      | nil => rfl
      | cons b t2 =>
          rw [List.getLast?_cons_cons]
          cases hx : (b :: t2).getLast? with
          | none =>
              have hs := List.getLast?_isSome (l := b :: t2)
              rw [hx] at hs
              simp at hs
          | some x => rfl

/-- `ws.clientInfo` reads back what was just stored. -/
theorem SJ.getInfo_setInfo_self (st : SJ.ServerState) (sid : Nat) (ci : SJ.ClientInfo) :
    SJ.getInfo (SJ.setInfo st sid ci) sid = ci := by
  simp [SJ.getInfo, SJ.setInfo, tblFind_tblSet_self]

/-- Adding a member to a room's client set does not touch the session
records. -/
theorem SJ.getInfo_addClient (st : SJ.ServerState) (r : String) (x q : Nat) :
    SJ.getInfo (SJ.addClient st r x) q = SJ.getInfo st q := by
  unfold SJ.addClient
  cases SJ.clientsOf st r with
  | none => rfl
  | some cs =>
      unfold SJ.setClients
      split_ifs <;> rfl

/-- The member set of a known room after `clients.add`. -/
theorem SJ.clientsOf_addClient (st : SJ.ServerState) (r : String) (x : Nat)
    (hk : knownRoom r = true) :
    SJ.clientsOf (SJ.addClient st r x) r = some (setAdd ((SJ.clientsOf st r).getD []) x) := by
  rcases knownRoom_cases hk with rfl | rfl | rfl <;>
    simp [SJ.addClient, SJ.clientsOf, SJ.setClients]

/-- `broadcast` to a known room emits one fan-out to its open members. -/
theorem SJ.broadcast_known (openOf : Nat → Bool) (st : SJ.ServerState) (r : String)
    (m : SJ.OutMsg) (hk : knownRoom r = true) :
    SJ.broadcast openOf st r m = [⟨r, ((SJ.clientsOf st r).getD []).filter openOf, m⟩] := by
  rcases knownRoom_cases hk with rfl | rfl | rfl <;> simp [SJ.broadcast, SJ.clientsOf]

/-- A text room's content after `setText`. -/
theorem SJ.contentOf_setText (st : SJ.ServerState) (r c : String)
    (hr : r = "novel" ∨ r = "music") :
    SJ.contentOf (SJ.setText st r c) r = some (.text c) := by
  rcases hr with rfl | rfl <;> simp [SJ.setText, SJ.contentOf]

/-- `setText` does not touch the session records. -/
theorem SJ.getInfo_setText (st : SJ.ServerState) (r c : String) (q : Nat) :
    SJ.getInfo (SJ.setText st r c) q = SJ.getInfo st q := by
  unfold SJ.setText
  split_ifs <;> rfl

/-- One accepted `text_update` step of `src/server.js`: replace the
blob, save it, broadcast the raw message to the room's open members. -/
theorem SJ.text_step (openOf : Nat → Bool) (st : SJ.ServerState) (sid : Nat)
    (r c : String) (hr : r = "novel" ∨ r = "music")
    (hj : ¬ (SJ.getInfo st sid).room = none) :
    SJ.handleMessage openOf st sid (.text_update r c) =
      ⟨SJ.setText st r c,
       [⟨r, ((SJ.clientsOf st r).getD []).filter openOf, .text_update r c⟩],
       [(r, .text c)]⟩ := by
  rcases hr with rfl | rfl <;>
    simp [SJ.handleMessage, SJ.broadcast, SJ.clientsOf, SJ.saveRoomContent, SJ.contentOf,
      SJ.setText, hj]

/-- Folding accepted `text_update` messages: the saves are the updates in
order, and the final content is the fold of replacement. -/
theorem SJ.run_texts (openOf : Nat → Bool) (r : String) (hr : r = "novel" ∨ r = "music")
    (updates : List (Nat × String)) (st : SJ.ServerState)
    (hall : ∀ p ∈ updates, ¬ (SJ.getInfo st p.1).room = none) :
    (SJ.run openOf st (updates.map (fun p => (p.1, SJ.InMsg.text_update r p.2)))).saves =
        updates.map (fun p => (r, SJ.Content.text p.2))
    ∧ SJ.contentOf
        (SJ.run openOf st (updates.map (fun p => (p.1, SJ.InMsg.text_update r p.2)))).state r =
        updates.foldl (fun _ p => some (SJ.Content.text p.2)) (SJ.contentOf st r) := by
  induction updates generalizing st with
  | nil => simp [SJ.run]
  | cons u rest ih =>
      have hstep := SJ.text_step openOf st u.1 r u.2 hr (hall u (by simp))
      have hall2 : ∀ p ∈ rest, ¬ (SJ.getInfo (SJ.setText st r u.2) p.1).room = none := by
        intro p hp
        rw [SJ.getInfo_setText]
        exact hall p (List.mem_cons_of_mem _ hp)
      obtain ⟨ihs, ihc⟩ := ih (SJ.setText st r u.2) hall2
      simp only [List.map_cons, SJ.run]
      rw [hstep]
      constructor
      · simpa using ihs
      · simp only [List.foldl_cons]
        rw [← SJ.contentOf_setText st r u.2 hr]
        exact ihc

/-- The successful-join shape of `src/server.js`: for a known room the
handler removes the socket from its previous room (when any), stores the
new clientInfo, adds the socket to the room, and broadcasts the roster
computed from the post-add state. -/
theorem SJ.join_known (openOf : Nat → Bool) (st : SJ.ServerState) (sid : Nat)
    (r nick : String) (hk : knownRoom r = true) (hr : ¬ r = "") (hn : ¬ nick = "") :
    ∃ stPre : SJ.ServerState,
      SJ.handleMessage openOf st sid (.join r nick) =
        ⟨SJ.addClient (SJ.setInfo stPre sid ⟨some r, some nick⟩) r sid,
         SJ.broadcast openOf (SJ.addClient (SJ.setInfo stPre sid ⟨some r, some nick⟩) r sid) r
           (.user_list_update
             (((SJ.clientsOf
                 (SJ.addClient (SJ.setInfo stPre sid ⟨some r, some nick⟩) r sid) r).getD []).map
               (fun c => (SJ.getInfo
                 (SJ.addClient (SJ.setInfo stPre sid ⟨some r, some nick⟩) r sid) c).nickname))),
         []⟩ := by
  refine ⟨match (SJ.getInfo st sid).room with
    | some old => SJ.removeClient st old sid
    | none => st, ?_⟩
  simp [SJ.handleMessage, SJ.handleJoin, hk, hr, hn]

/-- `ws` fields read back what `setSess` stored. -/
theorem P1.getSess_setSess_self (st : P1.State) (sid : Nat) (s : P1.Sess) :
    P1.getSess (P1.setSess st sid s) sid = s := by
  simp [P1.getSess, P1.setSess, tblFind_tblSet_self]

/-- `setSess` only touches the socket table, not any room's clients. -/
theorem P1.clientsOf_setSess (st : P1.State) (x : Nat) (s : P1.Sess) (r : String) :
    P1.clientsOf (P1.setSess st x s) r = P1.clientsOf st r := rfl

/-- `setSess` only touches the socket table, not any room's cursors. -/
theorem P1.cursorsOf_setSess (st : P1.State) (x : Nat) (s : P1.Sess) (r : String) :
    P1.cursorsOf (P1.setSess st x s) r = P1.cursorsOf st r := rfl

/-- `clients.add` does not touch the socket table. -/
theorem P1.getSess_addClient (st : P1.State) (r : String) (x q : Nat) :
    P1.getSess (P1.addClient st r x) q = P1.getSess st q := by
  unfold P1.addClient
  cases P1.clientsOf st r with
  | none => rfl
  | some cs =>
      unfold P1.setClients
      split_ifs <;> rfl

/-- The member set of a known room after `clients.add`. -/
theorem P1.clientsOf_addClient_self (st : P1.State) (r : String) (x : Nat)
    (hk : knownRoom r = true) :
    P1.clientsOf (P1.addClient st r x) r = some (setAdd ((P1.clientsOf st r).getD []) x) := by
  rcases knownRoom_cases hk with rfl | rfl | rfl <;>
    simp [P1.addClient, P1.clientsOf, P1.setClients]

/-- Adding to one known room leaves a different known room's members
unchanged. -/
theorem P1.clientsOf_addClient_other (st : P1.State) (b a : String) (x : Nat)
    (hkb : knownRoom b = true) (hka : knownRoom a = true) (hne : ¬ b = a) :
    P1.clientsOf (P1.addClient st b x) a = P1.clientsOf st a := by
  rcases knownRoom_cases hkb with rfl | rfl | rfl <;>
    rcases knownRoom_cases hka with rfl | rfl | rfl <;>
      first
        | exact absurd rfl hne
        | simp [P1.addClient, P1.clientsOf, P1.setClients]

/-- `clients.add` never touches any cursors map. -/
theorem P1.cursorsOf_addClient (st : P1.State) (b : String) (x : Nat) (r : String) :
    P1.cursorsOf (P1.addClient st b x) r = P1.cursorsOf st r := by
  unfold P1.addClient
  cases P1.clientsOf st b with
  | none => rfl
  | some cs =>
      unfold P1.setClients
      split_ifs <;> rfl

/-- `cursors.delete` never touches any clients set. -/
theorem P1.clientsOf_removeCursor (st : P1.State) (b : String) (k : Option String)
    (r : String) :
    P1.clientsOf (P1.removeCursor st b k) r = P1.clientsOf st r := by
  unfold P1.removeCursor
  cases P1.cursorsOf st b with
  | none => rfl
  | some m =>
      unfold P1.setCursors
      split_ifs <;> rfl

/-- `cursors.delete` never touches the socket table. -/
theorem P1.getSess_removeCursor (st : P1.State) (b : String) (k : Option String) (q : Nat) :
    P1.getSess (P1.removeCursor st b k) q = P1.getSess st q := by
  unfold P1.removeCursor
  cases P1.cursorsOf st b with
  | none => rfl
  | some m =>
      unfold P1.setCursors
      split_ifs <;> rfl

/-- The cursors map of a known room after `cursors.delete`. -/
theorem P1.cursorsOf_removeCursor_self (st : P1.State) (r : String) (k : Option String)
    (hk : knownRoom r = true) :
    P1.cursorsOf (P1.removeCursor st r k) r =
      some (tblDel ((P1.cursorsOf st r).getD []) k) := by
  rcases knownRoom_cases hk with rfl | rfl | rfl <;>
    simp [P1.removeCursor, P1.cursorsOf, P1.setCursors]

/-- `clients.delete` never touches any cursors map. -/
theorem P1.cursorsOf_removeClient (st : P1.State) (b : String) (x : Nat) (r : String) :
    P1.cursorsOf (P1.removeClient st b x) r = P1.cursorsOf st r := by
  unfold P1.removeClient
  cases P1.clientsOf st b with
  | none => rfl
  | some cs =>
      unfold P1.setClients
      split_ifs <;> rfl

/-- `clients.delete` never touches the socket table. -/
theorem P1.getSess_removeClient (st : P1.State) (b : String) (x : Nat) (q : Nat) :
    P1.getSess (P1.removeClient st b x) q = P1.getSess st q := by
  unfold P1.removeClient
  cases P1.clientsOf st b with
  | none => rfl
  | some cs =>
      unfold P1.setClients
      split_ifs <;> rfl

/-- The member set of a known room after `clients.delete`. -/
theorem P1.clientsOf_removeClient_self (st : P1.State) (r : String) (x : Nat)
    (hk : knownRoom r = true) :
    P1.clientsOf (P1.removeClient st r x) r = some (setDel ((P1.clientsOf st r).getD []) x) := by
  rcases knownRoom_cases hk with rfl | rfl | rfl <;>
    simp [P1.removeClient, P1.clientsOf, P1.setClients]

/-- The cursors map of a known room after `cursors.set`. -/
theorem P1.cursorsOf_setCursor_self (st : P1.State) (r : String) (k : Option String)
    (v : P1.CursorState) (hk : knownRoom r = true) :
    P1.cursorsOf (P1.setCursor st r k v) r =
      some (tblSet ((P1.cursorsOf st r).getD []) k v) := by
  rcases knownRoom_cases hk with rfl | rfl | rfl <;>
    simp [P1.setCursor, P1.cursorsOf, P1.setCursors]

/-- `cursors.set` never touches the socket table. -/
theorem P1.sessions_setCursor (st : P1.State) (r : String) (k : Option String)
    (v : P1.CursorState) :
    (P1.setCursor st r k v).sessions = st.sessions := by
  unfold P1.setCursor
  cases P1.cursorsOf st r with
  | none => rfl
  | some m =>
      unfold P1.setCursors
      split_ifs <;> rfl

/-! Claim theorems. -/

/-- Claim C1, counterexample: in `src/server.js` the drawing history is
not truncated at all.  After 2001 accepted `draw` messages on a fresh
drawing room the history holds all 2001 segments — its length is 2001,
not 2000 — and its first element is the segment of the first message
(nothing was evicted), which differs from the second message's segment. -/
theorem sj_draw_history_unbounded_2001 :
    (SJ.run (fun _ => true) SJ.demoState SJ.c1Events).state.freeHistory = SJ.c1History
    ∧ (SJ.run (fun _ => true) SJ.demoState SJ.c1Events).state.freeHistory.length = 2001
    ∧ ¬ (SJ.run (fun _ => true) SJ.demoState SJ.c1Events).state.freeHistory.length = 2000
    ∧ (SJ.run (fun _ => true) SJ.demoState SJ.c1Events).state.freeHistory.head? =
        some (SJ.mkSeg 0)
    ∧ ¬ SJ.mkSeg 0 = SJ.mkSeg 1 := by
  have h := SJ.run_draws (fun _ => true) 0 SJ.c1History SJ.demoState (by decide)
  have hev : SJ.c1Events = SJ.c1History.map (fun l => (0, SJ.InMsg.draw "free" l)) := rfl
  have hhist : (SJ.run (fun _ => true) SJ.demoState SJ.c1Events).state.freeHistory
      = SJ.c1History := by
    rw [hev, h]
    simp [SJ.demoState]
  have hlen : SJ.c1History.length = 2001 := by
    simp [SJ.c1History]
  have hhead : SJ.c1History.head? = some (SJ.mkSeg 0) := by
    have h1 : SJ.c1History = (List.range (2000 + 1)).map SJ.mkSeg := rfl
    rw [h1, List.range_succ_eq_map]
    simp
  refine ⟨hhist, ?_, ?_, ?_, by decide⟩
  · rw [hhist, hlen]
  · rw [hhist, hlen]
    decide
  · rw [hhist, hhead]

/-- Claim C1, amended: the H_MAX = 2000 FIFO truncation law holds for the
part_001 revision's `content_update` drawing handler.  For every sequence
of accepted drawing messages on a fresh drawing room the history equals
the segment sequence truncated to the most recent 2000 (FIFO eviction),
and in the 2001-message scenario the final history length is 2000 with
the second message's segment first. -/
theorem p1_draw_history_fifo_hmax2000 :
    (∀ (openOf : Nat → Bool) (sid : Nat) (segs : List P1.Stroke),
      (P1.run openOf P1.initialState
        (segs.map (fun l => (sid, P1.InMsg.content_update "free" (some l) "")))).state.freeHistory
        = segs.drop (segs.length - 2000))
    ∧ (P1.run (fun _ => true) P1.initialState
        (((List.range 2001).map P1.mkSeg).map
          (fun l => (0, P1.InMsg.content_update "free" (some l) "")))).state.freeHistory.length
        = 2000
    ∧ (P1.run (fun _ => true) P1.initialState
        (((List.range 2001).map P1.mkSeg).map
          (fun l => (0, P1.InMsg.content_update "free" (some l) "")))).state.freeHistory.head?
        = some (P1.mkSeg 1) := by
  have law : ∀ (openOf : Nat → Bool) (sid : Nat) (segs : List P1.Stroke),
      (P1.run openOf P1.initialState
        (segs.map (fun l => (sid, P1.InMsg.content_update "free" (some l) "")))).state.freeHistory
        = segs.drop (segs.length - 2000) := by
    intro openOf sid segs
    rw [P1.run_content_draws]
    show segs.foldl P1.evictPush [] = _
    rw [P1.evictPush_fold segs [] (by simp)]
    simp
  have hlen : ((List.range 2001).map P1.mkSeg).length = 2001 := by simp
  have hsub : (2001 : Nat) - 2000 = 1 := rfl
  refine ⟨law, ?_, ?_⟩
  · rw [law (fun _ => true) 0 ((List.range 2001).map P1.mkSeg), hlen, hsub]
    simp [hlen]
  · rw [law (fun _ => true) 0 ((List.range 2001).map P1.mkSeg), hlen, hsub]
    have h1 : (List.range 2001).map P1.mkSeg
        = P1.mkSeg 0 :: ((List.range 2000).map Nat.succ).map P1.mkSeg := by
      rw [show (2001 : Nat) = 2000 + 1 from rfl, List.range_succ_eq_map]
      simp
    rw [h1, List.drop_one, List.tail_cons, List.map_map]
    have h2 : List.range 2000 = 0 :: (List.range 1999).map Nat.succ := by
      rw [show (2000 : Nat) = 1999 + 1 from rfl, List.range_succ_eq_map]
    rw [h2]
    simp

/-- Claim C2, counterexample: sessions 1 and 2 are joined to "novel";
session 1 sends a `text_update` and the broadcast recipient list is
`[1, 2]` — the originating session 1 is among the recipients, so the
sender does receive an echo of its own update. -/
theorem sj_text_update_sender_not_excluded :
    SJ.handleMessage (fun _ => true) SJ.demoState 1 (.text_update "novel" "Hello, world") =
      ⟨{ SJ.demoState with novelContent := "Hello, world" },
       [⟨"novel", [1, 2], .text_update "novel" "Hello, world"⟩],
       [("novel", .text "Hello, world")]⟩
    ∧ 1 ∈ [1, 2] :=
  ⟨by decide, by decide⟩

/-- Claim C2, amended: `src/server.js` broadcasts an accepted
`text_update` to all open members of the target text room with no sender
exclusion — the originating session, when an open member, receives its
own echo (no exclusion parameter exists in `broadcast`). -/
theorem sj_text_update_broadcast_includes_sender (openOf : Nat → Bool)
    (st : SJ.ServerState) (sid : Nat) (r c : String)
    (hj : ¬ (SJ.getInfo st sid).room = none) (hr : r = "novel" ∨ r = "music") :
    SJ.handleMessage openOf st sid (.text_update r c) =
      ⟨SJ.setText st r c,
       [⟨r, ((SJ.clientsOf st r).getD []).filter openOf, .text_update r c⟩],
       [(r, .text c)]⟩
    ∧ (sid ∈ (SJ.clientsOf st r).getD [] → openOf sid = true →
        sid ∈ ((SJ.clientsOf st r).getD []).filter openOf) :=
  ⟨SJ.text_step openOf st sid r c hr hj,
   fun hmem hopen => List.mem_filter.mpr ⟨hmem, hopen⟩⟩

/-- Witness for the amended C2 statement at a concrete input. -/
theorem sj_text_update_broadcast_includes_sender_witness :
    (¬ (SJ.getInfo SJ.demoState 1).room = none)
    ∧ SJ.handleMessage (fun _ => true) SJ.demoState 1 (.text_update "novel" "Hi") =
        ⟨SJ.setText SJ.demoState "novel" "Hi",
         [⟨"novel", ((SJ.clientsOf SJ.demoState "novel").getD []).filter (fun _ => true),
           .text_update "novel" "Hi"⟩],
         [("novel", .text "Hi")]⟩ :=
  ⟨by decide,
   (sj_text_update_broadcast_includes_sender (fun _ => true) SJ.demoState 1 "novel" "Hi"
      (by decide) (Or.inl rfl)).1⟩

/-- Claim C3: for any drawing-room state and any client-supplied index,
undo and redo leave the entire server state untouched, perform no
persistence write, and emit exactly one `undo_redo` broadcast carrying
the whole current history and the index forwarded as-is. -/
theorem sj_undo_redo_pure_broadcast (openOf : Nat → Bool) (st : SJ.ServerState)
    (sid : Nat) (k : Int) (hj : ¬ (SJ.getInfo st sid).room = none) :
    SJ.handleMessage openOf st sid (.undo "free" k) =
      ⟨st, [⟨"free", st.freeClients.filter openOf, .undo_redo "free" st.freeHistory k⟩], []⟩
    ∧ SJ.handleMessage openOf st sid (.redo "free" k) =
      ⟨st, [⟨"free", st.freeClients.filter openOf, .undo_redo "free" st.freeHistory k⟩], []⟩ := by
  constructor <;> simp [SJ.handleMessage, SJ.broadcast, SJ.clientsOf, hj]

/-- Witness for C3 at a concrete input (an out-of-range index 99). -/
theorem sj_undo_redo_pure_broadcast_witness :
    (¬ (SJ.getInfo SJ.demoState 0).room = none)
    ∧ SJ.handleMessage (fun _ => true) SJ.demoState 0 (.undo "free" 99) =
        ⟨SJ.demoState, [⟨"free", SJ.demoState.freeClients.filter (fun _ => true),
          .undo_redo "free" SJ.demoState.freeHistory 99⟩], []⟩ :=
  ⟨by decide, (sj_undo_redo_pure_broadcast (fun _ => true) SJ.demoState 0 99 (by decide)).1⟩

/-- Claim C6, counterexample: part_001 has no "must join first" guard.
Session 9 never joined (its room is unset), yet its `content_update` for
"novel" replaces the room's content, is broadcast to the room's member
session 5, and is persisted. -/
theorem p1_unjoined_content_update_accepted :
    (P1.getSess P1.demoState 9).room = none
    ∧ P1.handleMessage (fun _ => true) P1.demoState 9 (.content_update "novel" none "hacked") =
        ⟨{ P1.demoState with novelContent := "hacked" },
         [⟨"novel", [5], .content_update "novel" "hacked"⟩],
         [], [("novel", .text "hacked")], true⟩
    ∧ ¬ "hacked" = P1.demoState.novelContent :=
  ⟨by decide, by decide, by decide⟩

/-- Claim C6, amended (`src/server.js` only): while a session's room is
unset, `src/server.js` silently drops every non-join message — no state
change, no save, no broadcast.  (part_001 lacks this guard, see the
counterexample.) -/
theorem sj_unjoined_messages_dropped (openOf : Nat → Bool) (st : SJ.ServerState)
    (sid : Nat) (m : SJ.InMsg) (hroom : (SJ.getInfo st sid).room = none)
    (hm : m.isJoin = false) :
    SJ.handleMessage openOf st sid m = ⟨st, [], []⟩ := by
  cases m <;> simp_all [SJ.handleMessage, SJ.InMsg.isJoin]

/-- Witness for the amended C6 statement at a concrete input. -/
theorem sj_unjoined_messages_dropped_witness :
    (SJ.getInfo SJ.demoState 7).room = none
    ∧ (SJ.InMsg.draw "free" (SJ.mkSeg 0)).isJoin = false
    ∧ SJ.handleMessage (fun _ => true) SJ.demoState 7 (.draw "free" (SJ.mkSeg 0)) =
        ⟨SJ.demoState, [], []⟩ :=
  ⟨by decide, by decide,
   sj_unjoined_messages_dropped (fun _ => true) SJ.demoState 7 _ (by decide) (by decide)⟩

/-- Claim C7, counterexample: a fresh Connected session joins the
unknown room "lobby"; afterwards its clientInfo.room is `some "lobby"`,
not unset — the session did not remain in the Connected (room unset)
state. -/
theorem sj_join_unknown_room_sets_room :
    SJ.getInfo (SJ.handleMessage (fun _ => true) SJ.initialState 0
        (.join "lobby" "alice")).state 0 = ⟨some "lobby", some "alice"⟩
    ∧ ¬ (SJ.getInfo (SJ.handleMessage (fun _ => true) SJ.initialState 0
          (.join "lobby" "alice")).state 0).room = none :=
  ⟨by decide, by decide⟩

/-- Claim C7, amended: a Connected session's join naming an unknown room
id changes no room's members or content and broadcasts and persists
nothing — but the session does not remain with its room unset:
`clientInfo.room` is assigned the unknown id before
`rooms[room].clients.add` throws, and the try/catch swallows the
exception, leaving that partial update in place. -/
theorem sj_join_unknown_room_partial_noop (openOf : Nat → Bool) (st : SJ.ServerState)
    (sid : Nat) (r nick : String) (hroom : (SJ.getInfo st sid).room = none)
    (hk : knownRoom r = false) (hr : ¬ r = "") (hn : ¬ nick = "") :
    SJ.handleMessage openOf st sid (.join r nick) =
      ⟨SJ.setInfo st sid ⟨some r, some nick⟩, [], []⟩
    ∧ (SJ.setInfo st sid ⟨some r, some nick⟩).freeClients = st.freeClients
    ∧ (SJ.setInfo st sid ⟨some r, some nick⟩).novelClients = st.novelClients
    ∧ (SJ.setInfo st sid ⟨some r, some nick⟩).musicClients = st.musicClients
    ∧ (SJ.setInfo st sid ⟨some r, some nick⟩).freeHistory = st.freeHistory
    ∧ (SJ.setInfo st sid ⟨some r, some nick⟩).novelContent = st.novelContent
    ∧ (SJ.setInfo st sid ⟨some r, some nick⟩).musicContent = st.musicContent
    ∧ SJ.getInfo (SJ.handleMessage openOf st sid (.join r nick)).state sid =
        ⟨some r, some nick⟩ := by
  have hgi : SJ.getInfo (SJ.setInfo st sid ⟨some r, some nick⟩) sid = ⟨some r, some nick⟩ :=
    SJ.getInfo_setInfo_self st sid _
  have hmain : SJ.handleMessage openOf st sid (.join r nick) =
      ⟨SJ.setInfo st sid ⟨some r, some nick⟩, [], []⟩ := by
    simp [SJ.handleMessage, SJ.handleJoin, hroom, hk, hr, hn, hgi]
  refine ⟨hmain, rfl, rfl, rfl, rfl, rfl, rfl, ?_⟩
  rw [hmain]
  exact hgi

/-- Witness for the amended C7 statement at a concrete input. -/
theorem sj_join_unknown_room_partial_noop_witness :
    (SJ.getInfo SJ.demoState 7).room = none ∧ knownRoom "lobby" = false
    ∧ SJ.handleMessage (fun _ => true) SJ.demoState 7 (.join "lobby" "dave") =
        ⟨SJ.setInfo SJ.demoState 7 ⟨some "lobby", some "dave"⟩, [], []⟩ :=
  ⟨by decide, by decide,
   (sj_join_unknown_room_partial_noop (fun _ => true) SJ.demoState 7 "lobby" "dave"
      (by decide) (by decide) (by decide) (by decide)).1⟩

/-- Claim C8: for a text room, after any nonempty sequence of accepted
`text_update` messages the in-memory content and the last persisted
content both equal the content of the last update processed
(last-writer-wins, full replace, no merging). -/
theorem sj_text_last_writer_wins (openOf : Nat → Bool) (r : String)
    (hr : r = "novel" ∨ r = "music") (updates : List (Nat × String))
    (st : SJ.ServerState)
    (hall : ∀ p ∈ updates, ¬ (SJ.getInfo st p.1).room = none)
    (sidL : Nat) (c : String) (hlast : updates.getLast? = some (sidL, c)) :
    SJ.contentOf
      (SJ.run openOf st (updates.map (fun p => (p.1, SJ.InMsg.text_update r p.2)))).state r
      = some (.text c)
    ∧ (SJ.run openOf st (updates.map (fun p => (p.1, SJ.InMsg.text_update r p.2)))).saves.getLast?
      = some (r, .text c) := by
  obtain ⟨hs, hc⟩ := SJ.run_texts openOf r hr updates st hall
  constructor
  · rw [hc, foldlReplace (fun p : Nat × String => some (SJ.Content.text p.2)) updates
      (SJ.contentOf st r), hlast]
    rfl
  · rw [hs, List.getLast?_map, hlast]
    rfl

/-- Witness for C8: the spec's two-session "novel" scenario — session 1
writes "Hello", session 2 writes "Hello, world"; the final and last-saved
content is "Hello, world". -/
theorem sj_text_last_writer_wins_witness :
    (∀ p ∈ [((1 : Nat), "Hello"), (2, "Hello, world")],
      ¬ (SJ.getInfo SJ.demoState p.1).room = none)
    ∧ [((1 : Nat), "Hello"), (2, "Hello, world")].getLast? = some (2, "Hello, world")
    ∧ SJ.contentOf
        (SJ.run (fun _ => true) SJ.demoState
          ([((1 : Nat), "Hello"), (2, "Hello, world")].map
            (fun p => (p.1, SJ.InMsg.text_update "novel" p.2)))).state "novel"
        = some (.text "Hello, world") :=
  ⟨by decide, by decide,
   (sj_text_last_writer_wins (fun _ => true) "novel" (Or.inl rfl)
      [(1, "Hello"), (2, "Hello, world")] SJ.demoState (by decide) 2 "Hello, world"
      (by decide)).1⟩

/-- Claim C10: every successful join immediately triggers a single
roster broadcast (`user_list_update`) to the joined room listing the
display names of all current members, the new joiner included. -/
theorem sj_join_roster_broadcast (openOf : Nat → Bool) (st : SJ.ServerState)
    (sid : Nat) (r nick : String) (hk : knownRoom r = true) (hr : ¬ r = "")
    (hn : ¬ nick = "") :
    sid ∈ (SJ.clientsOf (SJ.handleMessage openOf st sid (.join r nick)).state r).getD []
    ∧ (SJ.handleMessage openOf st sid (.join r nick)).sends =
        [⟨r, ((SJ.clientsOf (SJ.handleMessage openOf st sid (.join r nick)).state r).getD
            []).filter openOf,
          .user_list_update
            (((SJ.clientsOf (SJ.handleMessage openOf st sid (.join r nick)).state r).getD
                []).map
              (fun c => (SJ.getInfo
                (SJ.handleMessage openOf st sid (.join r nick)).state c).nickname))⟩]
    ∧ some nick ∈
        ((SJ.clientsOf (SJ.handleMessage openOf st sid (.join r nick)).state r).getD []).map
          (fun c =>
            (SJ.getInfo (SJ.handleMessage openOf st sid (.join r nick)).state c).nickname) := by
  obtain ⟨stPre, heq⟩ := SJ.join_known openOf st sid r nick hk hr hn
  rw [heq]
  have hmem : sid ∈ (SJ.clientsOf
      (SJ.addClient (SJ.setInfo stPre sid ⟨some r, some nick⟩) r sid) r).getD [] := by
    rw [SJ.clientsOf_addClient _ _ _ hk]
    exact mem_setAdd_self _ _
  refine ⟨hmem, ?_, ?_⟩
  · rw [SJ.broadcast_known _ _ _ _ hk]
  · refine List.mem_map.mpr ⟨sid, hmem, ?_⟩
    rw [SJ.getInfo_addClient, SJ.getInfo_setInfo_self]

/-- Witness for C10 at a concrete input: session 3 joins "novel" on the
demo state; its name is in the broadcast roster. -/
theorem sj_join_roster_broadcast_witness :
    knownRoom "novel" = true
    ∧ some "dana" ∈
        ((SJ.clientsOf (SJ.handleMessage (fun _ => true) SJ.demoState 3
            (.join "novel" "dana")).state "novel").getD []).map
          (fun c => (SJ.getInfo (SJ.handleMessage (fun _ => true) SJ.demoState 3
            (.join "novel" "dana")).state c).nickname) :=
  ⟨by decide,
   (sj_join_roster_broadcast (fun _ => true) SJ.demoState 3 "novel" "dana"
      (by decide) (by decide) (by decide)).2.2⟩

/-- Claim C4: in part_001, after a joined, named session disconnects,
the room's presence (cursors) map no longer holds the session's display
name, and exactly three broadcasts go to the room: one
`user_list_update` roster of the remaining members, then exactly two
sentinel `cursor_update` messages — text-caret flag with out-of-range
scalar position -1, and canvas flag with out-of-range pair (-1, -1). -/
theorem p1_disconnect_presence_cleanup (openOf : Nat → Bool) (st : P1.State)
    (sid : Nat) (r n : String) (hs : P1.getSess st sid = ⟨some r, some n⟩)
    (hk : knownRoom r = true) (hr : ¬ r = "") (hn : ¬ n = "") :
    (∀ p ∈ (P1.cursorsOf (P1.handleClose openOf st sid).state r).getD [],
      ¬ p.1 = some n)
    ∧ ∃ recips,
        (P1.handleClose openOf st sid).sends =
          [⟨r, recips, .user_list_update
              (((P1.clientsOf (P1.handleClose openOf st sid).state r).getD []).map
                (fun c => (P1.getSess (P1.handleClose openOf st sid).state c).nickname))⟩,
           ⟨r, recips, .cursor_update r (some n) true (.scalar (-1)) none none none⟩,
           ⟨r, recips, .cursor_update r (some n) false (.point (-1) (-1)) none none none⟩] := by
  have h1 : P1.handleClose openOf st sid =
      P1.closeCore openOf
        { st with sessions := st.sessions.filter (fun p => decide (¬ p.1 = sid)) } sid r n := by
    simp [P1.handleClose, hs, hr, hn]
  have h2 : ∀ st0 : P1.State, P1.closeCore openOf st0 sid r n =
      ⟨P1.removeCursor (P1.removeClient st0 r sid) r (some n),
       P1.broadcast openOf (P1.removeCursor (P1.removeClient st0 r sid) r (some n)) r
           (.user_list_update
             (((P1.clientsOf (P1.removeCursor (P1.removeClient st0 r sid) r (some n)) r).getD
                 []).map
               (fun c => (P1.getSess
                 (P1.removeCursor (P1.removeClient st0 r sid) r (some n)) c).nickname)))
         ++ P1.broadcast openOf (P1.removeCursor (P1.removeClient st0 r sid) r (some n)) r
             (.cursor_update r (some n) true (.scalar (-1)) none none none)
         ++ P1.broadcast openOf (P1.removeCursor (P1.removeClient st0 r sid) r (some n)) r
             (.cursor_update r (some n) false (.point (-1) (-1)) none none none),
       [], [], true⟩ := by
    intro st0
    simp [P1.closeCore, hk]
  simp only [h1, h2]
  constructor
  · intro p hp
    rw [P1.cursorsOf_removeCursor_self _ _ _ hk] at hp
    simp only [Option.getD_some] at hp
    exact mem_tblDel_ne _ _ _ hp
  · refine ⟨((P1.removeCursor (P1.removeClient
      { st with sessions := st.sessions.filter (fun p => decide (¬ p.1 = sid)) } r sid) r
        (some n)).sessions.filter
          (fun p => openOf p.1 && decide (p.2.room = some r))).map Prod.fst, ?_⟩
    simp [P1.broadcast]

/-- Witness for C4 at a concrete input: "alice" (session 0, joined
"free" with a live cursor) disconnects; her presence entry is gone. -/
theorem p1_disconnect_presence_cleanup_witness :
    P1.getSess P1.demoState 0 = ⟨some "free", some "alice"⟩
    ∧ (∀ p ∈ (P1.cursorsOf (P1.handleClose (fun _ => true) P1.demoState 0).state "free").getD [],
        ¬ p.1 = some "alice") :=
  ⟨by decide,
   (p1_disconnect_presence_cleanup (fun _ => true) P1.demoState 0 "free" "alice"
      (by decide) (by decide) (by decide) (by decide)).1⟩

/-- Claim C5, counterexample: session 0 ("alice"), joined to "free" with
a live cursor entry, joins "novel".  The only broadcast is the `joined`
roster to room "novel": no message of any kind — in particular no
presence-clear `cursor_update` sentinel — is broadcast to room "free",
even though alice's membership and cursor entry in "free" were removed. -/
theorem p1_room_switch_emits_no_presence_clear :
    (P1.handleMessage (fun _ => true) P1.demoState 0 (.join "novel" "alice")).sends =
      [⟨"novel", [0, 5], .joined [some "carol", some "alice"]⟩]
    ∧ (P1.handleMessage (fun _ => true) P1.demoState 0 (.join "novel" "alice")).sends.filter
        (fun b => b.room == "free") = []
    ∧ (P1.handleMessage (fun _ => true) P1.demoState 0
        (.join "novel" "alice")).state.freeCursors = []
    ∧ (P1.handleMessage (fun _ => true) P1.demoState 0
        (.join "novel" "alice")).state.freeClients = [1] :=
  ⟨by decide, by decide, by decide, by decide⟩

/-- Claim C5, amended: in part_001, switching from room A to a different
room B removes the session from A's members and from A's presence
(cursors) map before adding it to B's members — but no presence-clear is
emitted: no broadcast at all targets room A during the switch. -/
theorem p1_room_switch_members_presence (openOf : Nat → Bool)
    (st : P1.State) (sid : Nat) (A B nick : String)
    (hA : (P1.getSess st sid).room = some A)
    (hkA : knownRoom A = true) (hkB : knownRoom B = true) (hAB : ¬ A = B)
    (hcount : ((P1.clientsOf st A).getD []).count sid ≤ 1) :
    (P1.handleMessage openOf st sid (.join B nick)).ok = true
    ∧ sid ∉ (P1.clientsOf (P1.handleMessage openOf st sid (.join B nick)).state A).getD []
    ∧ (∀ p ∈ (P1.cursorsOf (P1.handleMessage openOf st sid (.join B nick)).state A).getD [],
        ¬ p.1 = (P1.getSess st sid).nickname)
    ∧ sid ∈ (P1.clientsOf (P1.handleMessage openOf st sid (.join B nick)).state B).getD []
    ∧ (P1.handleMessage openOf st sid (.join B nick)).sends.filter
        (fun b => b.room == A) = [] := by
  have heq : P1.handleMessage openOf st sid (.join B nick) =
      P1.joinCore openOf
        (P1.removeCursor (P1.removeClient st A sid) A (P1.getSess st sid).nickname)
        sid B nick := by
    simp [P1.handleMessage, P1.handleJoin, hA, hkA]
  have hcore : ∀ stX : P1.State, P1.joinCore openOf stX sid B nick =
      ⟨P1.addClient (P1.setSess stX sid ⟨some B, some nick⟩) B sid,
       P1.broadcast openOf (P1.addClient (P1.setSess stX sid ⟨some B, some nick⟩) B sid) B
         (.joined
           (((P1.clientsOf
               (P1.addClient (P1.setSess stX sid ⟨some B, some nick⟩) B sid) B).getD []).map
             (fun c => (P1.getSess
               (P1.addClient (P1.setSess stX sid ⟨some B, some nick⟩) B sid) c).nickname))),
       ((P1.cursorsOf
           (P1.addClient (P1.setSess stX sid ⟨some B, some nick⟩) B sid) B).getD []).map
         (fun p => (sid, P1.OutMsg.cursor_update B p.1 p.2.isText p.2.position p.2.tool
           p.2.penColor p.2.penWidth)),
       [], true⟩ := by
    intro stX
    simp [P1.joinCore, hkB]
  simp only [heq, hcore]
  have hBA : (B == A) = false := beq_eq_false_iff_ne.mpr (fun h => hAB h.symm)
  refine ⟨by trivial, ?_, ?_, ?_, ?_⟩
  · rw [P1.clientsOf_addClient_other _ B A sid hkB hkA (fun h => hAB h.symm),
        P1.clientsOf_setSess, P1.clientsOf_removeCursor,
        P1.clientsOf_removeClient_self _ _ _ hkA]
    simp only [Option.getD_some]
    exact not_mem_setDel_self _ _ hcount
  · intro p hp
    rw [P1.cursorsOf_addClient, P1.cursorsOf_setSess,
        P1.cursorsOf_removeCursor_self _ _ _ hkA] at hp
    simp only [Option.getD_some] at hp
    exact mem_tblDel_ne _ _ _ hp
  · rw [P1.clientsOf_addClient_self _ _ _ hkB]
    simp only [Option.getD_some]
    exact mem_setAdd_self _ _
  · simp [P1.broadcast, hBA]

/-- Witness for the amended C5 statement at a concrete input. -/
theorem p1_room_switch_members_presence_witness :
    (P1.getSess P1.demoState 0).room = some "free"
    ∧ 0 ∉ (P1.clientsOf (P1.handleMessage (fun _ => true) P1.demoState 0
        (.join "novel" "alice")).state "free").getD [] :=
  ⟨by decide,
   (p1_room_switch_members_presence (fun _ => true) P1.demoState 0 "free" "novel" "alice"
      (by decide) (by decide) (by decide) (by decide) (by decide)).2.1⟩

/-- Claim C9, counterexample: session 0 ("alice", joined "free") sends a
cursor_update; the broadcast recipient list is `[0, 1]` — the
originating session 0 is among the recipients, not excluded. -/
theorem p1_cursor_update_sender_receives_echo :
    (P1.handleMessage (fun _ => true) P1.demoState 0
        (.cursor_update "free" false (.point 10 20) (some "pen") (some "red") (some 2))).sends =
      [⟨"free", [0, 1],
        .cursor_update "free" none false (.point 10 20) (some "pen") (some "red") (some 2)⟩]
    ∧ 0 ∈ [0, 1] :=
  ⟨by decide, by decide⟩

/-- Claim C9, amended: in part_001 a cursor_update for a known room
upserts the room's presence entry under the sender's display name and
broadcasts the update to all open members of the room — with the
originating session included, not excluded. -/
theorem p1_cursor_update_upserts_and_echoes_sender (openOf : Nat → Bool)
    (st : P1.State) (sid : Nat) (r : String) (isText : Bool) (pos : Pos)
    (tool penColor : Option String) (penWidth : Option Int)
    (hk : knownRoom r = true) :
    tblFind ((P1.cursorsOf (P1.handleMessage openOf st sid
        (.cursor_update r isText pos tool penColor penWidth)).state r).getD [])
      (P1.getSess st sid).nickname = some ⟨isText, pos, tool, penColor, penWidth⟩
    ∧ (P1.handleMessage openOf st sid
        (.cursor_update r isText pos tool penColor penWidth)).sends =
        [⟨r, (st.sessions.filter (fun q => openOf q.1 && decide (q.2.room = some r))).map
            Prod.fst,
          .cursor_update r none isText pos tool penColor penWidth⟩]
    ∧ (∀ s : P1.Sess, tblFind st.sessions sid = some s → s.room = some r →
        openOf sid = true →
        sid ∈ (st.sessions.filter (fun q => openOf q.1 && decide (q.2.room = some r))).map
          Prod.fst) := by
  have hmain : P1.handleMessage openOf st sid
      (.cursor_update r isText pos tool penColor penWidth) =
      ⟨P1.setCursor st r (P1.getSess st sid).nickname ⟨isText, pos, tool, penColor, penWidth⟩,
       P1.broadcast openOf
         (P1.setCursor st r (P1.getSess st sid).nickname
           ⟨isText, pos, tool, penColor, penWidth⟩) r
         (.cursor_update r none isText pos tool penColor penWidth),
       [], [], true⟩ := by
    simp [P1.handleMessage, hk]
  refine ⟨?_, ?_, ?_⟩
  · simp only [hmain]
    rw [P1.cursorsOf_setCursor_self _ _ _ _ hk]
    simp only [Option.getD_some]
    exact tblFind_tblSet_self _ _ _
  · simp only [hmain]
    simp only [P1.broadcast, P1.sessions_setCursor]
  · intro s hfind hroom hopen
    refine List.mem_map.mpr ⟨(sid, s), ?_, rfl⟩
    refine List.mem_filter.mpr ⟨tblFind_mem _ _ _ hfind, ?_⟩
    simp [hopen, hroom]

/-- Witness for the amended C9 statement at a concrete input. -/
theorem p1_cursor_update_upserts_and_echoes_sender_witness :
    knownRoom "free" = true
    ∧ tblFind ((P1.cursorsOf (P1.handleMessage (fun _ => true) P1.demoState 0
          (.cursor_update "free" true (.scalar 7) none none none)).state "free").getD [])
        (P1.getSess P1.demoState 0).nickname = some ⟨true, .scalar 7, none, none, none⟩ :=
  ⟨by decide,
   (p1_cursor_update_upserts_and_echoes_sender (fun _ => true) P1.demoState 0 "free" true
      (.scalar 7) none none none (by decide)).1⟩
